import Mathlib

/-!
Verification of the Contract Analyser application (src/app.py).

The application is a single-file Streamlit program.  Its locally
implemented behaviour is embedded shallowly below:

* `Json` models Python values produced by the json library
  (objects are association lists, numbers are integers — the fragment
  the application's schema uses).
* Third-party library behaviour (the json decoder, PyPDF2 page text
  extraction, python-docx paragraphs, bytes.decode, and the remote
  generative-model call) is abstracted into an `Env` record of
  functions; `json_loads` below is a concrete executable instance of
  the json decoder used to instantiate witnesses.
* `jsonMatchGroup` models `re.search` of the pattern
  used at src/app.py line 69 (first occurrence of the opening fence,
  greedy body, so the close fence is the last occurrence after it).
* `run_analysis` models the button-handler flow (src/app.py lines
  107-231) as a pure function from the environment and the uploaded
  file to the list of UI events; Python exceptions are `Except` values
  and the surrounding try/except blocks are their handlers.
-/

namespace ContractAnalyser

/-- Model of a Python value deserialised from JSON text.  Objects keep
their key/value pairs as an association list; numbers are restricted to
integers, which covers every value the application's schema exchanges. -/
inductive Json where
  | null
  | bool (b : Bool)
  | num (n : Int)
  | str (s : String)
  | arr (elems : List Json)
  | obj (fields : List (String × Json))

/-- Python truthiness (`if analysis_data:`) of a JSON value:
None, False, 0, "", [] and the empty dict are falsy. -/
def Json.truthy : Json → Bool
  | .null => false
  | .bool b => b
  | .num n => n != 0
  | .str s => s != ""
  | .arr l => !l.isEmpty
  | .obj l => !l.isEmpty

/-- Opening brace character, written numerically. -/
def obrace : Char := Char.ofNat 123

/-- Closing brace character, written numerically. -/
def cbrace : Char := Char.ofNat 125

/-- Whitespace skipping of the json decoder. -/
def skipWs : List Char → List Char
  | [] => []
  | c :: cs => if c = ' ' ∨ c = '\n' ∨ c = '\t' ∨ c = '\r' then skipWs cs else c :: cs

/-- Escape table of JSON string literals (the `\uXXXX` form is not
supported by this executable instance; inputs using it simply fall
outside its domain). -/
def escChar (d : Char) : Option Char :=
  if d = '"' then some '"'
  else if d = '\\' then some '\\'
  else if d = '/' then some '/'
  else if d = 'n' then some '\n'
  else if d = 't' then some '\t'
  else if d = 'r' then some '\r'
  else if d = 'b' then some (Char.ofNat 8)
  else if d = 'f' then some (Char.ofNat 12)
  else none

/-- Parse the body of a JSON string literal, after the opening quote;
returns the decoded characters and the rest of the input. -/
def parseStrBody : Nat → List Char → Option (List Char × List Char)
  | 0, _ => none
  | Nat.succ fuel, s =>
    match s with
    | [] => none
    | c :: cs =>
      if c = '"' then some ([], cs)
      else if c = '\\' then
        match cs with
        | [] => none
        | d :: ds =>
          match escChar d with
          | none => none
          | some e => (parseStrBody fuel ds).map (fun p => (e :: p.1, p.2))
      else (parseStrBody fuel cs).map (fun p => (c :: p.1, p.2))

/-- Leading decimal digits of the input and the remaining input. -/
def takeDigits (s : List Char) : List Char × List Char :=
  (s.takeWhile Char.isDigit, s.dropWhile Char.isDigit)

/-- Numeric value of a digit string. -/
def digitsToNat (ds : List Char) : Nat :=
  ds.foldl (fun a c => a * 10 + (c.toNat - 48)) 0

mutual

/-- Parse one JSON value (fuelled recursion). -/
def parseVal : Nat → List Char → Option (Json × List Char)
  | 0, _ => none
  | Nat.succ fuel, s =>
    match skipWs s with
    | [] => none
    | c :: cs =>
      if c = 'n' then
        if cs.take 3 = ['u', 'l', 'l'] then some (Json.null, cs.drop 3) else none
      else if c = 't' then
        if cs.take 3 = ['r', 'u', 'e'] then some (Json.bool true, cs.drop 3) else none
      else if c = 'f' then
        if cs.take 4 = ['a', 'l', 's', 'e'] then some (Json.bool false, cs.drop 4) else none
      else if c = '"' then
        (parseStrBody fuel cs).map (fun p => (Json.str (String.mk p.1), p.2))
      else if c = '-' then
        match takeDigits cs with
        | ([], _) => none
        | (ds, rest) => some (Json.num (-(digitsToNat ds : Int)), rest)
      else if c.isDigit then
        match takeDigits (c :: cs) with
        | (ds, rest) => some (Json.num (digitsToNat ds), rest)
      else if c = '[' then
        match skipWs cs with
        | ']' :: rest => some (Json.arr [], rest)
        | _ => (parseElems fuel (skipWs cs)).map (fun p => (Json.arr p.1, p.2))
      else if c = obrace then
        match skipWs cs with
        | c2 :: rest =>
          if c2 = cbrace then some (Json.obj [], rest)
          else (parseMembers fuel (skipWs cs)).map (fun p => (Json.obj p.1, p.2))
        | [] => none
      else none

/-- Parse the elements of a non-empty JSON array, up to and including
the closing bracket. -/
def parseElems : Nat → List Char → Option (List Json × List Char)
  | 0, _ => none
  | Nat.succ fuel, s =>
    match parseVal fuel s with
    | none => none
    | some (v, rest) =>
      match skipWs rest with
      | ',' :: r2 => (parseElems fuel r2).map (fun p => (v :: p.1, p.2))
      | ']' :: r2 => some ([v], r2)
      | _ => none

/-- Parse the members of a non-empty JSON object, up to and including
the closing brace. -/
def parseMembers : Nat → List Char → Option (List (String × Json) × List Char)
  | 0, _ => none
  | Nat.succ fuel, s =>
    match skipWs s with
    | '"' :: cs =>
      match parseStrBody fuel cs with
      | none => none
      | some (key, r1) =>
        match skipWs r1 with
        | ':' :: r2 =>
          match parseVal fuel r2 with
          | none => none
          | some (v, r3) =>
            match skipWs r3 with
            | ',' :: r4 => (parseMembers fuel r4).map (fun p => ((String.mk key, v) :: p.1, p.2))
            | c5 :: r4 => if c5 = cbrace then some ([(String.mk key, v)], r4) else none
            | [] => none
        | _ => none
    | _ => none

end

/-- Executable instance of Python's `json.loads` on the JSON fragment
the application exchanges: returns `none` exactly where the library
call would raise (for this fragment), i.e. where the whole input is not
one JSON value. -/
def json_loads (s : String) : Option Json :=
  match parseVal (s.data.length + 1) s.data with
  | none => none
  | some (j, rest) => if skipWs rest = [] then some j else none

/-- Does the input start with the given pattern? -/
def listStarts (pat s : List Char) : Bool :=
  s.take pat.length = pat

/-- Position of the first occurrence of `pat` in `s` (the start position
chosen by `re.search`). -/
def firstPos (pat s : List Char) : Option Nat :=
  if listStarts pat s then some 0
  else
    match s with
    | [] => none
    | _ :: t => (firstPos pat t).map (· + 1)

/-- Position of the last occurrence of `pat` in `s` (the end position a
greedy `.*` with `re.DOTALL` backtracks to). -/
def lastPos (pat s : List Char) : Option Nat :=
  match s with
  | [] => if listStarts pat [] then some 0 else none
  | c :: t =>
    match lastPos pat t with
    | some j => some (j + 1)
    | none => if listStarts pat (c :: t) then some 0 else none

/-- The opening fence of the pattern at src/app.py line 69. -/
def fenceOpen : List Char := "```json\n".data

/-- The closing fence of the pattern at src/app.py line 69. -/
def fenceClose : List Char := "\n```".data

/-- Model of `re.search` with the fenced-JSON
pattern of src/app.py line 69 under `re.DOTALL`: the match starts at the
first occurrence of the opening fence and the greedy group extends to
the last occurrence of the closing fence after it; returns `group(1)`. -/
def jsonMatchGroup (s : List Char) : Option (List Char) :=
  match firstPos fenceOpen s with
  | none => none
  | some i =>
    let rest := s.drop (i + fenceOpen.length)
    match lastPos fenceClose rest with
    | none => none
    | some k => some (rest.take k)

/-- The `json_str` selected at src/app.py lines 69-73: the fenced group
when the pattern matches, otherwise the whole response text. -/
def selectedPayload (respText : String) : String :=
  match jsonMatchGroup respText.data with
  | some g => String.mk g
  | none => respText

/-- Environment of third-party behaviour the application calls into.
Each field models one library boundary; `Except.error e` models the
call raising a Python exception whose message is `e`. -/
structure Env where
  /-- Behaviour of `json.loads`: `none` models a raised decode error. -/
  loads : String → Option Json
  /-- Behaviour of `PdfReader(...).pages[i].extract_text()` on the given
  file bytes: the per-page extracted texts (`none` for a page yielding
  no text), or a raised exception. -/
  pdfPages : List Nat → Except String (List (Option String))
  /-- Behaviour of `Document(...).paragraphs[i].text` on the given file
  bytes: the paragraph texts, or a raised exception. -/
  docxParas : List Nat → Except String (List String)
  /-- Behaviour of `bytes.decode("utf-8")` on the given file bytes: the
  decoded text, or a raised `UnicodeDecodeError`. -/
  decodeUtf8 : List Nat → Except String String
  /-- Behaviour of `model.generate_content(...)` followed by
  `response.text`, as a function of the contract text embedded in the
  prompt: the model's response text, or a raised transport/API error. -/
  modelResponse : String → Except String String

/-- The post-call parsing step of `get_gemini_response` (src/app.py
lines 69-75): select the payload, then deserialise it; `none` models
the `json.loads` exception reaching the handler at line 77. -/
def parse_model_output (env : Env) (respText : String) : Option Json :=
  env.loads (selectedPayload respText)

/-- Python `dict.get(k, d)` on a deserialised JSON value: defined for
dict values only; on any other value the attribute access raises
(`Except.error`), as `AttributeError` does. -/
def dictGet (j : Json) (k : String) (d : Json) : Except String Json :=
  match j with
  | .obj kvs => Except.ok ((kvs.lookup k).getD d)
  | _ => Except.error "AttributeError"

/-- First-found value of a key in an association list, with a default —
`dict.get` once the receiver is known to be a dict. -/
def lookupD (kvs : List (String × Json)) (k : String) (d : Json) : Json :=
  (kvs.lookup k).getD d

/-- The comparison `... == "Yes"` applied to a deserialised value. -/
def isYes (v : Json) : Bool :=
  match v with
  | .str s => s == "Yes"
  | _ => false

/-- One clause checkbox value:
`container.get(key, "No") == "Yes"` (src/app.py lines 203-221). -/
def checkFlag (d : Json) (k : String) : Except String Bool :=
  (dictGet d k (Json.str "No")).map isYes

/-- The six headline keys rendered in coloured boxes (src/app.py
lines 158-165). -/
def headlineKeys : List String :=
  ["Contract Type", "Address", "Entry Date", "Contract Party",
   "Termination Date", "End of Contract"]

/-- The eight narrative keys rendered as info blocks (src/app.py
lines 182-189). -/
def narrativeKeys : List String :=
  ["Executive Summary", "Scope of Service", "Responsibilities for Deliverables",
   "Payment Schedule", "Tax Compliance", "Important Dates and Deadlines",
   "Termination Clauses", "Confidentiality and Non-Compete Clause"]

/-- The four commercial clause keys (src/app.py lines 203-207). -/
def commercialKeys : List String :=
  ["Payment Terms", "IP", "Delivery Time", "Warranty"]

/-- The four legal clause keys (src/app.py lines 217-221). -/
def legalKeys : List String :=
  ["Indemnification", "Termination", "Confidentiality", "Limitation of Liability"]

/-- Look up each key in turn with the given default
(`analysis_data.get(key, default)` in a loop), propagating the raise
when the receiver is not a dict. -/
def getEach (data : Json) (d : Json) : List String → Except String (List (String × Json))
  | [] => Except.ok []
  | k :: ks => do
    let v ← dictGet data k d
    let rest ← getEach data d ks
    Except.ok ((k, v) :: rest)

/-- What the presenter (src/app.py lines 155-221) puts on the page for
one analysis: the six coloured boxes, the eight info blocks, and the
two groups of four disabled checkboxes. -/
structure RenderedAnalysis where
  boxes : List (String × Json)
  blocks : List (String × Json)
  commercialFlags : List (String × Bool)
  legalFlags : List (String × Bool)

/-- The clause-presence checkboxes (src/app.py lines 195-221):
`clauses = analysis_data.get("Clauses Presence", {})`, then the
Commercial group, then the Legal group. -/
def clauseFlags (data : Json) : Except String (List (String × Bool) × List (String × Bool)) := do
  let clauses ← dictGet data "Clauses Presence" (Json.obj [])
  let commercial ← dictGet clauses "Commercial" (Json.obj [])
  let c1 ← checkFlag commercial "Payment Terms"
  let c2 ← checkFlag commercial "IP"
  let c3 ← checkFlag commercial "Delivery Time"
  let c4 ← checkFlag commercial "Warranty"
  let legal ← dictGet clauses "Legal" (Json.obj [])
  let l1 ← checkFlag legal "Indemnification"
  let l2 ← checkFlag legal "Termination"
  let l3 ← checkFlag legal "Confidentiality"
  let l4 ← checkFlag legal "Limitation of Liability"
  Except.ok
    ([("Payment Terms", c1), ("IP", c2), ("Delivery Time", c3), ("Warranty", c4)],
     [("Indemnification", l1), ("Termination", l2),
      ("Confidentiality", l3), ("Limitation of Liability", l4)])

/-- The presenter (src/app.py lines 155-221): headline boxes with
default "N/A", narrative blocks with default "N/A", then the clause
checkboxes; a raise anywhere propagates to the outer handler. -/
def renderAnalysis (data : Json) : Except String RenderedAnalysis := do
  let boxes ← getEach data (Json.str "N/A") headlineKeys
  let blocks ← getEach data (Json.str "N/A") narrativeKeys
  let flags ← clauseFlags data
  Except.ok ⟨boxes, blocks, flags.1, flags.2⟩

/-- A UI event emitted by the Streamlit flow (`st.info`, `st.warning`,
`st.error`, `st.success`, rendering of the analysis), plus a marker
recording that the model call was issued with the given contract
text. -/
inductive Event where
  | info (msg : String)
  | warning (msg : String)
  | error (msg : String)
  | success (msg : String)
  | modelCall (contractText : String)
  | rendered (r : RenderedAnalysis)

/-- Text of the exception raised by `json.loads` on malformed input, as
interpolated into the message at src/app.py line 78.  The concrete
message text comes from the json library; it is modelled by a fixed
string since the application only displays it. -/
def jsonDecodeErrText : String := "Expecting value"

/-- `get_gemini_response` (src/app.py lines 20-79) given the library
environment: issues the model call, selects and deserialises the
payload, and on any raise shows `st.error` and returns `None`.  Returns
the parsed value (or `none`) together with the events emitted. -/
def get_gemini_response (env : Env) (input_text : String) : Option Json × List Event :=
  match env.modelResponse input_text with
  | .error e => (none, [Event.modelCall input_text, Event.error ("An error occurred: " ++ e)])
  | .ok respText =>
    match parse_model_output env respText with
    | some j => (some j, [Event.modelCall input_text])
    | none =>
      (none, [Event.modelCall input_text,
              Event.error ("An error occurred: " ++ jsonDecodeErrText)])

/-- `extract_text_from_pdf` (src/app.py lines 81-87): fold over the
pages, appending `page.extract_text() or ""` to the accumulator. -/
def extract_text_from_pdf (pages : List (Option String)) : String :=
  pages.foldl (fun text p => text ++ p.getD "") ""

/-- `extract_text_from_docx` (src/app.py lines 89-95): fold over the
paragraphs, appending `paragraph.text + "\n"` to the accumulator. -/
def extract_text_from_docx (paragraphs : List String) : String :=
  paragraphs.foldl (fun text s => text ++ s ++ "\n") ""

/-- An uploaded file as the handler sees it: `uploaded_file.size`,
`uploaded_file.type`, and the bytes of `uploaded_file.getvalue()`. -/
structure UploadedFile where
  size : Nat
  mime : String
  content : List Nat

/-- The MIME type of a DOCX upload (src/app.py line 122). -/
def docxMime : String :=
  "application/vnd.openxmlformats-officedocument.wordprocessingml.document"

/-- The `st.info` message of the extraction branch taken for the given
MIME type (src/app.py lines 120, 123, 126), if any branch matches. -/
def branchInfoMsg (mime : String) : Option String :=
  if mime = "application/pdf" then some "Extracting text from PDF..."
  else if mime = docxMime then some "Extracting text from DOCX..."
  else if mime = "text/plain" then some "Reading text from TXT..."
  else none

/-- Events emitted by the extraction branch before extraction runs. -/
def branchEvents (f : UploadedFile) : List Event :=
  match branchInfoMsg f.mime with
  | some m => [Event.info m]
  | none => []

/-- The extraction dispatch (src/app.py lines 119-127): applied to the
file bytes according to the declared MIME type; an unmatched type
leaves `contract_text` as the empty string. -/
def extractStep (env : Env) (f : UploadedFile) : Except String String :=
  if f.mime = "application/pdf" then
    (env.pdfPages f.content).map extract_text_from_pdf
  else if f.mime = docxMime then
    (env.docxParas f.content).map extract_text_from_docx
  else if f.mime = "text/plain" then
    env.decodeUtf8 f.content
  else Except.ok ""

/-- The error shown when extraction produced no text (src/app.py
line 226). -/
def noTextMsg : String :=
  "Could not extract any text from the uploaded file. Please ensure the file is not corrupted."

/-- The error shown when the analysis yielded nothing usable
(src/app.py line 224). -/
def analyzeFailMsg : String :=
  "Could not analyze the contract. Please check the contract text and your API key."

/-- The success banner (src/app.py line 134). -/
def successMsg : String := "Analysis Complete! 🎉"

/-- The oversize rejection message (src/app.py line 111). -/
def sizeErrMsg : String :=
  "File size exceeds the 200 MB limit. Please upload a smaller file."

/-- The body of the `try` at src/app.py lines 118-226: the events it
emits, and the exception (`some e`) that escapes to the handler at
line 228, if any.  The `if analysis_data:` test at line 133 is Python
truthiness of None-or-JSON. -/
def tryBody (env : Env) (f : UploadedFile) : List Event × Option String :=
  match extractStep env f with
  | .error e => (branchEvents f, some e)
  | .ok contract_text =>
    if contract_text = "" then
      (branchEvents f ++ [Event.error noTextMsg], none)
    else
      match (get_gemini_response env contract_text).1 with
      | some j =>
        if j.truthy then
          match renderAnalysis j with
          | .ok r =>
            (branchEvents f ++ (get_gemini_response env contract_text).2
              ++ [Event.success successMsg, Event.rendered r], none)
          | .error e =>
            (branchEvents f ++ (get_gemini_response env contract_text).2
              ++ [Event.success successMsg], some e)
        else
          (branchEvents f ++ (get_gemini_response env contract_text).2
            ++ [Event.error analyzeFailMsg], none)
      | none =>
        (branchEvents f ++ (get_gemini_response env contract_text).2
          ++ [Event.error analyzeFailMsg], none)

/-- The `try`/`except` at src/app.py lines 118-229: an escaping
exception is caught and shown as a processing error. -/
def processFile (env : Env) (f : UploadedFile) : List Event :=
  match tryBody env f with
  | (evs, some e) => evs ++ [Event.error ("An error occurred during file processing: " ++ e)]
  | (evs, none) => evs

/-- The Analyze-button handler (src/app.py lines 107-231): warn when no
file is uploaded; reject files over 200 * 1024 * 1024 bytes before any
processing; otherwise run the guarded body. -/
def run_analysis (env : Env) (file : Option UploadedFile) : List Event :=
  match file with
  | some f =>
    if 200 * 1024 * 1024 < f.size then [Event.error sizeErrMsg]
    else processFile env f
  | none => [Event.warning "Please upload a contract file to analyze."]

/-- An environment whose json decoder is the executable instance and
whose other boundaries are unused; for instantiating the parser
theorems. -/
def jsonLoadsEnv : Env :=
  Env.mk json_loads (fun _ => Except.error "unused") (fun _ => Except.error "unused")
    (fun _ => Except.error "unused") (fun _ => Except.error "unused")

/-- An environment whose model always replies with text that is not
JSON at all. -/
def malformedEnv : Env :=
  Env.mk json_loads (fun _ => Except.error "unused") (fun _ => Except.error "unused")
    (fun _ => Except.error "unused") (fun _ => Except.ok "not json")

/-! ## Lemmas about the fenced-block pattern match -/

lemma listStarts_append_self (pat rest : List Char) :
    listStarts pat (pat ++ rest) = true := by
  simp [listStarts, List.take_left]

lemma firstPos_append_self (pat rest : List Char) :
    firstPos pat (pat ++ rest) = some 0 := by
  unfold firstPos
  rw [if_pos]
  exact (listStarts_append_self pat rest)

lemma listStarts_self (pat : List Char) : listStarts pat pat = true := by
  simp [listStarts, List.take_length]

lemma lastPos_of_short (pat s : List Char) (hpat : pat ≠ [])
    (hlen : s.length < pat.length) : lastPos pat s = none := by
  induction s with
  | nil =>
    unfold lastPos listStarts
    simp [hpat.symm]
  | cons c t ih =>
    have ht : t.length < pat.length := Nat.lt_of_succ_lt hlen
    unfold lastPos
    rw [ih ht, if_neg]
    intro hst
    unfold listStarts at hst
    have htake : (c :: t).take pat.length = c :: t :=
      List.take_of_length_le (Nat.le_of_lt hlen)
    rw [htake] at hst
    have hl := congrArg List.length (of_decide_eq_true hst)
    simp only [List.length_cons] at hl hlen
    omega

lemma lastPos_append_self (pat b : List Char) (hpat : pat ≠ []) :
    lastPos pat (b ++ pat) = some b.length := by
  induction b with
  | nil =>
    obtain ⟨c, t, rfl⟩ : ∃ c t, pat = c :: t := by
      cases pat with
      | nil => exact absurd rfl hpat
      | cons c t => exact ⟨c, t, rfl⟩
    show lastPos (c :: t) (c :: t) = some 0
    unfold lastPos
    rw [lastPos_of_short (c :: t) t hpat (by simp only [List.length_cons]; omega)]
    rw [if_pos (listStarts_self (c :: t))]
  | cons c b' ih =>
    show lastPos pat (c :: (b' ++ pat)) = some (b'.length + 1)
    unfold lastPos
    rw [ih]

/-- The group extracted by the regex from a response that is exactly an
opening fence, a body, and a closing fence, is exactly the body. -/
lemma jsonMatchGroup_fenced (b : List Char) :
    jsonMatchGroup (fenceOpen ++ (b ++ fenceClose)) = some b := by
  simp only [jsonMatchGroup, firstPos_append_self, Nat.zero_add, List.drop_left]
  rw [lastPos_append_self fenceClose b (by decide)]
  simp only [List.take_left]

lemma selectedPayload_fenced (body : String) :
    selectedPayload ("```json\n" ++ body ++ "\n```") = body := by
  unfold selectedPayload
  have hd : ("```json\n" ++ body ++ "\n```").data
      = fenceOpen ++ (body.data ++ fenceClose) := by
    rw [String.data_append, String.data_append, List.append_assoc]
    rfl
  rw [hd, jsonMatchGroup_fenced]

/-! ## C1-C3: the response parser -/

/-- C1: a model response that consists of a fenced code block with the
`json` language tag whose content deserialises to a value J is parsed
by extracting the fenced content via the pattern match and
deserialising it, yielding exactly J. -/
theorem parse_response_fenced_json (env : Env) (body : String) (J : Json)
    (h : env.loads body = some J) :
    parse_model_output env ("```json\n" ++ body ++ "\n```") = some J := by
  unfold parse_model_output
  rw [selectedPayload_fenced]
  exact h

/-- Witness for C1 at a concrete fenced response. -/
theorem parse_response_fenced_json_witness :
    jsonLoadsEnv.loads "\x7b\"a\": 1\x7d" = some (Json.obj [("a", Json.num 1)]) ∧
    parse_model_output jsonLoadsEnv ("```json\n" ++ "\x7b\"a\": 1\x7d" ++ "\n```")
      = some (Json.obj [("a", Json.num 1)]) :=
  ⟨rfl, parse_response_fenced_json jsonLoadsEnv "\x7b\"a\": 1\x7d"
    (Json.obj [("a", Json.num 1)]) rfl⟩

/-- C2: a model response that is bare JSON deserialising to J, with no
code fence anywhere in it, is parsed by falling back to the whole
response text, yielding exactly J. -/
theorem parse_response_bare_json (env : Env) (s : String) (J : Json)
    (hnf : firstPos fenceOpen s.data = none) (h : env.loads s = some J) :
    parse_model_output env s = some J := by
  unfold parse_model_output selectedPayload jsonMatchGroup
  rw [hnf]
  exact h

/-- Witness for C2 at a concrete bare-JSON response. -/
theorem parse_response_bare_json_witness :
    jsonLoadsEnv.loads "\x7b\"a\": 1\x7d" = some (Json.obj [("a", Json.num 1)]) ∧
    parse_model_output jsonLoadsEnv "\x7b\"a\": 1\x7d"
      = some (Json.obj [("a", Json.num 1)]) :=
  ⟨rfl, parse_response_bare_json jsonLoadsEnv "\x7b\"a\": 1\x7d"
    (Json.obj [("a", Json.num 1)]) (by decide) rfl⟩

/-- C3: when the selected payload (fenced group if the pattern matches,
else the whole response) fails to deserialise, the parsing step yields
`none` and `get_gemini_response` catches the raise, shows the error to
the user, and returns `None`; being a total function of the
environment, it cannot crash the process. -/
theorem parse_response_malformed_json (env : Env) (input respText : String)
    (hm : env.modelResponse input = Except.ok respText)
    (hp : env.loads (selectedPayload respText) = none) :
    parse_model_output env respText = none ∧
    get_gemini_response env input =
      (none, [Event.modelCall input,
              Event.error ("An error occurred: " ++ jsonDecodeErrText)]) := by
  refine ⟨hp, ?_⟩
  unfold get_gemini_response
  rw [hm]
  show (match parse_model_output env respText with
    | some j => (some j, [Event.modelCall input])
    | none => (none, [Event.modelCall input,
        Event.error ("An error occurred: " ++ jsonDecodeErrText)])) = _
  unfold parse_model_output
  rw [hp]

/-- Witness for C3 at a concrete malformed response. -/
theorem parse_response_malformed_json_witness :
    parse_model_output malformedEnv "not json" = none ∧
    get_gemini_response malformedEnv "some contract" =
      (none, [Event.modelCall "some contract",
              Event.error ("An error occurred: " ++ jsonDecodeErrText)]) :=
  parse_response_malformed_json malformedEnv "some contract" "not json" rfl rfl

/-! ## Lemmas about the presenter -/

/-- The nested object found at a key, with the dict default of the
presenter: a missing key stands for the empty dict, a non-dict value
for the raising case. -/
def objAtD (kvs : List (String × Json)) (k : String) : Option (List (String × Json)) :=
  match kvs.lookup k with
  | none => some []
  | some (Json.obj o) => some o
  | some _ => none

lemma lookupD_objAtD (kvs : List (String × Json)) (k : String)
    (o : List (String × Json)) (h : objAtD kvs k = some o) :
    lookupD kvs k (Json.obj []) = Json.obj o := by
  unfold objAtD at h
  unfold lookupD
  cases hkv : kvs.lookup k with
  | none =>
    rw [hkv] at h
    simp at h
    subst h
    rfl
  | some v =>
    rw [hkv] at h
    cases v <;> simp at h
    subst h
    rfl

lemma getEach_obj (kvs : List (String × Json)) (d : Json) (ks : List String) :
    getEach (Json.obj kvs) d ks = Except.ok (ks.map fun k => (k, lookupD kvs k d)) := by
  induction ks with
  | nil => rfl
  | cons k t ih =>
    simp only [getEach, dictGet, bind, Except.bind, ih, List.map, lookupD]

lemma clauseFlags_obj (kvs ckvs mkvs lkvs : List (String × Json))
    (hc : objAtD kvs "Clauses Presence" = some ckvs)
    (hm : objAtD ckvs "Commercial" = some mkvs)
    (hl : objAtD ckvs "Legal" = some lkvs) :
    clauseFlags (Json.obj kvs) = Except.ok
      (commercialKeys.map (fun k => (k, isYes (lookupD mkvs k (Json.str "No")))),
       legalKeys.map (fun k => (k, isYes (lookupD lkvs k (Json.str "No"))))) := by
  have e1 : (List.lookup "Clauses Presence" kvs).getD (Json.obj []) = Json.obj ckvs :=
    lookupD_objAtD kvs "Clauses Presence" ckvs hc
  have e2 : (List.lookup "Commercial" ckvs).getD (Json.obj []) = Json.obj mkvs :=
    lookupD_objAtD ckvs "Commercial" mkvs hm
  have e3 : (List.lookup "Legal" ckvs).getD (Json.obj []) = Json.obj lkvs :=
    lookupD_objAtD ckvs "Legal" lkvs hl
  simp only [clauseFlags, bind, Except.bind, dictGet, checkFlag, Except.map,
    e1, e2, e3, lookupD, commercialKeys, legalKeys, List.map]

/-! ## C4: presenter defaults for missing fields -/

/-- C4: on an analysis mapping whose nested clause containers are
dicts where present, the presenter never raises, substitutes the
literal "N/A" for every missing headline or narrative field, and
renders every missing clause flag as false — including when the whole
"Clauses Presence" object or a whole category is absent (then every
lookup below it misses and every flag of that group is false). -/
theorem presenter_missing_fields_default (kvs ckvs mkvs lkvs : List (String × Json))
    (hc : objAtD kvs "Clauses Presence" = some ckvs)
    (hm : objAtD ckvs "Commercial" = some mkvs)
    (hl : objAtD ckvs "Legal" = some lkvs) :
    ∃ r, renderAnalysis (Json.obj kvs) = Except.ok r ∧
      (∀ k, k ∈ headlineKeys → kvs.lookup k = none → (k, Json.str "N/A") ∈ r.boxes) ∧
      (∀ k, k ∈ narrativeKeys → kvs.lookup k = none → (k, Json.str "N/A") ∈ r.blocks) ∧
      (∀ k, k ∈ commercialKeys → mkvs.lookup k = none → (k, false) ∈ r.commercialFlags) ∧
      (∀ k, k ∈ legalKeys → lkvs.lookup k = none → (k, false) ∈ r.legalFlags) := by
  have hrender : renderAnalysis (Json.obj kvs) = Except.ok
      ⟨headlineKeys.map (fun k => (k, lookupD kvs k (Json.str "N/A"))),
       narrativeKeys.map (fun k => (k, lookupD kvs k (Json.str "N/A"))),
       commercialKeys.map (fun k => (k, isYes (lookupD mkvs k (Json.str "No")))),
       legalKeys.map (fun k => (k, isYes (lookupD lkvs k (Json.str "No"))))⟩ := by
    simp only [renderAnalysis, bind, Except.bind, getEach_obj,
      clauseFlags_obj kvs ckvs mkvs lkvs hc hm hl]
  refine ⟨_, hrender, ?_, ?_, ?_, ?_⟩
  · intro k hk hnone
    exact List.mem_map.mpr ⟨k, hk, by simp [lookupD, hnone]⟩
  · intro k hk hnone
    exact List.mem_map.mpr ⟨k, hk, by simp [lookupD, hnone]⟩
  · intro k hk hnone
    exact List.mem_map.mpr ⟨k, hk, by simp [lookupD, hnone, isYes]⟩
  · intro k hk hnone
    exact List.mem_map.mpr ⟨k, hk, by simp [lookupD, hnone, isYes]⟩

/-- Witness for C4 on the empty analysis mapping: every requested key
is missing, every clause container defaults to the empty dict. -/
theorem presenter_missing_fields_default_witness :
    ∃ r, renderAnalysis (Json.obj []) = Except.ok r ∧
      ("Address", Json.str "N/A") ∈ r.boxes ∧
      ("Executive Summary", Json.str "N/A") ∈ r.blocks ∧
      ("Payment Terms", false) ∈ r.commercialFlags ∧
      ("Termination", false) ∈ r.legalFlags := by
  obtain ⟨r, hr, hb, hn, hcf, hlf⟩ :=
    presenter_missing_fields_default [] [] [] [] rfl rfl rfl
  exact ⟨r, hr, hb "Address" (by decide) rfl, hn "Executive Summary" (by decide) rfl,
    hcf "Payment Terms" (by decide) rfl, hlf "Termination" (by decide) rfl⟩

/-! ## C5: the size gate -/

/-- C5: a file over 200 * 1024 * 1024 bytes is rejected with the size
error alone — no extraction notice, no model call, nothing else — and a
file at or below the ceiling passes the gate into the processing
body. -/
theorem size_gate (env : Env) (f : UploadedFile) :
    (200 * 1024 * 1024 < f.size →
      run_analysis env (some f) = [Event.error sizeErrMsg] ∧
      ∀ t, Event.modelCall t ∉ run_analysis env (some f)) ∧
    (f.size ≤ 200 * 1024 * 1024 →
      run_analysis env (some f) = processFile env f) := by
  constructor
  · intro h
    have he : run_analysis env (some f) = [Event.error sizeErrMsg] := by
      simp only [run_analysis]
      rw [if_pos h]
    refine ⟨he, ?_⟩
    intro t hmem
    rw [he] at hmem
    simp at hmem
  · intro h
    simp only [run_analysis]
    rw [if_neg (Nat.not_lt.mpr h)]

/-- Witness for C5: a file one byte over the ceiling is rejected; a
five-byte file passes the gate. -/
theorem size_gate_witness :
    run_analysis jsonLoadsEnv
        (some (UploadedFile.mk (200 * 1024 * 1024 + 1) "text/plain" []))
      = [Event.error sizeErrMsg] ∧
    run_analysis jsonLoadsEnv (some (UploadedFile.mk 5 "text/plain" []))
      = processFile jsonLoadsEnv (UploadedFile.mk 5 "text/plain" []) :=
  ⟨((size_gate jsonLoadsEnv (UploadedFile.mk (200 * 1024 * 1024 + 1) "text/plain" [])).1
      (by decide)).1,
   (size_gate jsonLoadsEnv (UploadedFile.mk 5 "text/plain" [])).2 (by decide)⟩

/-! ## C6 and C7: the extraction folds -/

lemma str_append_assoc (a b c : String) : a ++ b ++ c = a ++ (b ++ c) := by
  cases a
  cases b
  cases c
  exact congrArg String.mk (List.append_assoc _ _ _)

lemma str_append_empty (a : String) : a ++ "" = a := by
  cases a
  exact congrArg String.mk (List.append_nil _)

lemma str_empty_append (a : String) : "" ++ a = a := by
  cases a
  exact congrArg String.mk (List.nil_append _)

lemma pdf_foldl_acc (pages : List (Option String)) :
    ∀ a : String, pages.foldl (fun text p => text ++ p.getD "") a
      = a ++ (pages.map (fun p => p.getD "")).foldr (· ++ ·) "" := by
  induction pages with
  | nil =>
    intro a
    simp only [List.foldl, List.map, List.foldr]
    rw [str_append_empty]
  | cons p t ih =>
    intro a
    simp only [List.foldl, List.map, List.foldr]
    rw [ih (a ++ p.getD ""), str_append_assoc]

/-- C6: PDF extraction returns the concatenation of the per-page texts
in page order, an empty string standing in for a page that yields no
extractable text. -/
theorem extract_text_from_pdf_concat (pages : List (Option String)) :
    extract_text_from_pdf pages
      = (pages.map (fun p => p.getD "")).foldr (· ++ ·) "" := by
  unfold extract_text_from_pdf
  rw [pdf_foldl_acc pages "", str_empty_append]

lemma docx_foldl_acc (paragraphs : List String) :
    ∀ a : String, paragraphs.foldl (fun text s => text ++ s ++ "\n") a
      = a ++ (paragraphs.map (fun s => s ++ "\n")).foldr (· ++ ·) "" := by
  induction paragraphs with
  | nil =>
    intro a
    simp only [List.foldl, List.map, List.foldr]
    rw [str_append_empty]
  | cons s t ih =>
    intro a
    simp only [List.foldl, List.map, List.foldr]
    rw [ih (a ++ s ++ "\n"), str_append_assoc, str_append_assoc,
      str_append_assoc s "\n"]

/-- C7: DOCX extraction appends a newline to every paragraph, the last
included, and returns their concatenation; with no paragraphs it
returns the empty string. -/
theorem extract_text_from_docx_newlines (paragraphs : List String) :
    extract_text_from_docx paragraphs
      = (paragraphs.map (fun s => s ++ "\n")).foldr (· ++ ·) "" ∧
    extract_text_from_docx [] = "" := by
  constructor
  · unfold extract_text_from_docx
    rw [docx_foldl_acc paragraphs "", str_empty_append]
  · rfl

/-! ## Lemmas about the handler flow -/

lemma gemini_events_head (env : Env) (t : String) :
    ∃ tl, (get_gemini_response env t).2 = Event.modelCall t :: tl := by
  unfold get_gemini_response
  cases hr : env.modelResponse t with
  | error e => exact ⟨[Event.error ("An error occurred: " ++ e)], rfl⟩
  | ok respText =>
    show ∃ tl, (match parse_model_output env respText with
      | some j => (some j, [Event.modelCall t])
      | none => (none, [Event.modelCall t,
          Event.error ("An error occurred: " ++ jsonDecodeErrText)])).2
      = Event.modelCall t :: tl
    cases hp : parse_model_output env respText with
    | some j => exact ⟨[], rfl⟩
    | none => exact ⟨[Event.error ("An error occurred: " ++ jsonDecodeErrText)], rfl⟩

lemma processFile_model_events (env : Env) (f : UploadedFile) (T : String)
    (hex : extractStep env f = Except.ok T) (hne : ¬ T = "") :
    ∃ tail, processFile env f
      = branchEvents f ++ ((get_gemini_response env T).2 ++ tail) := by
  simp only [processFile, tryBody, hex, if_neg hne]
  cases hg : (get_gemini_response env T).1 with
  | none => exact ⟨[Event.error analyzeFailMsg], by simp [List.append_assoc]⟩
  | some j =>
    cases hj : j.truthy with
    | false => exact ⟨[Event.error analyzeFailMsg], by simp [hj, List.append_assoc]⟩
    | true =>
      cases hrd : renderAnalysis j with
      | ok r =>
        exact ⟨[Event.success successMsg, Event.rendered r],
          by simp [hj, hrd, List.append_assoc]⟩
      | error e =>
        exact ⟨[Event.success successMsg,
          Event.error ("An error occurred during file processing: " ++ e)],
          by simp [hj, hrd, List.append_assoc]⟩

lemma branchEvents_only_info (f : UploadedFile) (ev : Event)
    (h : ev ∈ branchEvents f) : ∃ m, ev = Event.info m := by
  unfold branchEvents at h
  cases hbm : branchInfoMsg f.mime with
  | none =>
    rw [hbm] at h
    simp at h
  | some m =>
    rw [hbm] at h
    simp at h
    exact ⟨m, h⟩

/-! ## C8: plain-text pass-through -/

/-- C8: for a plain-text upload whose bytes decode as UTF-8 to T, the
extraction step yields exactly T with no transformation, and (under the
size gate, when T is non-empty) T itself is what reaches the model
call. -/
theorem plain_text_passthrough (env : Env) (f : UploadedFile) (T : String)
    (hm : f.mime = "text/plain") (hd : env.decodeUtf8 f.content = Except.ok T) :
    extractStep env f = Except.ok T ∧
    (f.size ≤ 200 * 1024 * 1024 → ¬ T = "" →
      Event.modelCall T ∈ run_analysis env (some f)) := by
  have hex : extractStep env f = Except.ok T := by
    unfold extractStep
    rw [hm, if_neg (by decide), if_neg (by decide), if_pos rfl]
    exact hd
  refine ⟨hex, ?_⟩
  intro hs hne
  have hrun : run_analysis env (some f) = processFile env f := by
    simp only [run_analysis]
    rw [if_neg (Nat.not_lt.mpr hs)]
  obtain ⟨tail, htail⟩ := processFile_model_events env f T hex hne
  obtain ⟨tl, htl⟩ := gemini_events_head env T
  rw [hrun, htail, htl]
  simp

/-- An environment whose UTF-8 decode yields a fixed text and whose
model transport fails; enough to watch the text reach the call. -/
def passthroughEnv : Env :=
  Env.mk json_loads (fun _ => Except.error "unused") (fun _ => Except.error "unused")
    (fun _ => Except.ok "hello contract") (fun _ => Except.error "transport error")

/-- A small plain-text upload. -/
def passthroughFile : UploadedFile := UploadedFile.mk 14 "text/plain" [104, 105]

/-- Witness for C8 at a concrete plain-text file. -/
theorem plain_text_passthrough_witness :
    extractStep passthroughEnv passthroughFile = Except.ok "hello contract" ∧
    Event.modelCall "hello contract"
      ∈ run_analysis passthroughEnv (some passthroughFile) := by
  obtain ⟨h1, h2⟩ :=
    plain_text_passthrough passthroughEnv passthroughFile "hello contract" rfl rfl
  exact ⟨h1, h2 (by decide) (by decide)⟩

/-! ## C9: extraction exceptions are caught -/

/-- C9: when extraction raises — e.g. a plain-text file whose bytes are
not valid UTF-8 — the exception is caught by the outer handler, a
user-visible processing error is shown, and no model call is ever
issued; the flow is a total function, so the process does not crash. -/
theorem extraction_exception_handled (env : Env) (f : UploadedFile) (e : String)
    (hs : f.size ≤ 200 * 1024 * 1024)
    (hex : extractStep env f = Except.error e) :
    run_analysis env (some f)
      = branchEvents f
        ++ [Event.error ("An error occurred during file processing: " ++ e)] ∧
    ∀ t, Event.modelCall t ∉ run_analysis env (some f) := by
  have h1 : run_analysis env (some f)
      = branchEvents f
        ++ [Event.error ("An error occurred during file processing: " ++ e)] := by
    simp only [run_analysis]
    rw [if_neg (Nat.not_lt.mpr hs)]
    simp only [processFile, tryBody, hex]
  refine ⟨h1, ?_⟩
  intro t hmem
  rw [h1] at hmem
  rcases List.mem_append.mp hmem with hb | hb
  · obtain ⟨m, hm2⟩ := branchEvents_only_info f _ hb
    simp at hm2
  · simp at hb

/-- An environment whose UTF-8 decode raises, as it does on bytes that
are not valid UTF-8. -/
def badUtf8Env : Env :=
  Env.mk json_loads (fun _ => Except.error "unused") (fun _ => Except.error "unused")
    (fun _ => Except.error "invalid start byte") (fun _ => Except.error "unused")

/-- A one-byte plain-text upload whose byte is not valid UTF-8. -/
def badUtf8File : UploadedFile := UploadedFile.mk 1 "text/plain" [255]

/-- Witness for C9 at a concrete undecodable plain-text file. -/
theorem extraction_exception_handled_witness :
    run_analysis badUtf8Env (some badUtf8File)
      = [Event.info "Reading text from TXT...",
         Event.error "An error occurred during file processing: invalid start byte"] ∧
    Event.modelCall "anything" ∉ run_analysis badUtf8Env (some badUtf8File) := by
  obtain ⟨h1, h2⟩ := extraction_exception_handled badUtf8Env badUtf8File
    "invalid start byte" (by decide) rfl
  refine ⟨?_, h2 "anything"⟩
  rw [h1]
  rfl

/-! ## C10: a falsy parse result is treated as failure -/

/-- C10: when the model response deserialises successfully but to a
Python-falsy value (empty object, empty list, null, ...), the caller
shows the "Could not analyze the contract" error and renders nothing,
even though parsing succeeded. -/
theorem falsy_analysis_rejected (env : Env) (f : UploadedFile)
    (T respText : String) (J : Json)
    (hs : f.size ≤ 200 * 1024 * 1024)
    (hex : extractStep env f = Except.ok T) (hne : ¬ T = "")
    (hmr : env.modelResponse T = Except.ok respText)
    (hp : env.loads (selectedPayload respText) = some J)
    (hfalsy : J.truthy = false) :
    run_analysis env (some f)
      = branchEvents f ++ [Event.modelCall T] ++ [Event.error analyzeFailMsg] ∧
    ∀ r, Event.rendered r ∉ run_analysis env (some f) := by
  have hg : get_gemini_response env T = (some J, [Event.modelCall T]) := by
    unfold get_gemini_response
    rw [hmr]
    show (match parse_model_output env respText with
      | some j => (some j, [Event.modelCall T])
      | none => (none, [Event.modelCall T,
          Event.error ("An error occurred: " ++ jsonDecodeErrText)])) = _
    unfold parse_model_output
    rw [hp]
  have h1 : run_analysis env (some f)
      = branchEvents f ++ [Event.modelCall T] ++ [Event.error analyzeFailMsg] := by
    simp only [run_analysis]
    rw [if_neg (Nat.not_lt.mpr hs)]
    simp [processFile, tryBody, hex, if_neg hne, hg, hfalsy]
  refine ⟨h1, ?_⟩
  intro r hmem
  rw [h1] at hmem
  rcases List.mem_append.mp hmem with hb | hb
  · rcases List.mem_append.mp hb with hb2 | hb2
    · obtain ⟨m, hm2⟩ := branchEvents_only_info f _ hb2
      simp at hm2
    · simp at hb2
  · simp at hb

/-- An environment whose model replies with the empty JSON object. -/
def falsyEnv : Env :=
  Env.mk json_loads (fun _ => Except.error "unused") (fun _ => Except.error "unused")
    (fun _ => Except.ok "some text") (fun _ => Except.ok "\x7b\x7d")

/-- A small plain-text upload for the falsy-response run. -/
def falsyFile : UploadedFile := UploadedFile.mk 9 "text/plain" [115]

/-- Witness for C10 at a concrete run whose model answers the empty
object. -/
theorem falsy_analysis_rejected_witness :
    run_analysis falsyEnv (some falsyFile)
      = [Event.info "Reading text from TXT...", Event.modelCall "some text",
         Event.error analyzeFailMsg] ∧
    Event.rendered (RenderedAnalysis.mk [] [] [] [])
      ∉ run_analysis falsyEnv (some falsyFile) := by
  obtain ⟨h1, h2⟩ := falsy_analysis_rejected falsyEnv falsyFile "some text" "\x7b\x7d"
    (Json.obj []) (by decide) rfl (by decide) rfl rfl rfl
  refine ⟨?_, h2 (RenderedAnalysis.mk [] [] [] [])⟩
  rw [h1]
  rfl

end ContractAnalyser
